import Mathlib

/-!
Verification of the Berlin-App scoring pipeline.

The Python sources are shallowly embedded over:
  * strings as lists of Unicode codepoints (`List Nat`),
  * floats as rationals (`ℚ`) with `Option ℚ` for nullable (NaN) cells,
  * pandas columns as Lean lists, dataframes as structures of columns or
    lists of row records,
  * fallible builders as `Except` values.
-/

namespace BerlinApp

/-- Unicode codepoints of a Lean string literal.  Python `str` values are
modelled as lists of codepoints (`List Nat`). -/
def codes (s : String) : List Nat := s.data.map Char.toNat

/-- Python `str.lower`, modelled on the ASCII and Latin-1 range plus ẞ
(U+1E9E → ß).  Codepoints outside the modelled range are left unchanged. -/
def pyLower (n : Nat) : Nat :=
  if 65 ≤ n ∧ n ≤ 90 then n + 32
  else if 192 ≤ n ∧ n ≤ 222 ∧ n ≠ 215 then n + 32
  else if n = 7838 then 223
  else n

/-- Python `str.isalnum` per character, modelled on ASCII digits/letters, the
Latin-1 letters U+00C0–U+00FF (excluding × U+00D7 and ÷ U+00F7), and ẞ
(U+1E9E).  Codepoints outside this range are treated as not alphanumeric. -/
def pyIsAlnum (n : Nat) : Bool :=
  (48 ≤ n && n ≤ 57) || (65 ≤ n && n ≤ 90) || (97 ≤ n && n ≤ 122) ||
  (192 ≤ n && n ≤ 255 && !(n == 215) && !(n == 247)) || (n == 7838)

/-- Python whitespace as used by `str.strip()`, Latin-1 fragment. -/
def pyIsSpace (n : Nat) : Bool :=
  n == 9 || n == 10 || n == 11 || n == 12 || n == 13 ||
  n == 28 || n == 29 || n == 30 || n == 31 || n == 32 || n == 133 || n == 160

/-- Python `str.strip()`: drop whitespace from both ends. -/
def pyStrip (s : List Nat) : List Nat :=
  ((s.dropWhile pyIsSpace).reverse.dropWhile pyIsSpace).reverse

/-- Python `s.replace(k, v)` for a single-character needle `k`. -/
def replaceChar (k : Nat) (v : List Nat) (s : List Nat) : List Nat :=
  s.flatMap (fun c => if c = k then v else [c])

/-- `_fold_umlauts` from `text.py`: sequential whole-string replaces in the
`UMLAUT_MAP` insertion order ä(228) ö(246) ü(252) Ä(196) Ö(214) Ü(220) ß(223);
the innermost application below is the first replace performed. -/
def fold_umlauts (s : List Nat) : List Nat :=
  replaceChar 223 (codes "ss")
    (replaceChar 220 (codes "ue")
      (replaceChar 214 (codes "oe")
        (replaceChar 196 (codes "ae")
          (replaceChar 252 (codes "ue")
            (replaceChar 246 (codes "oe")
              (replaceChar 228 (codes "ae") s))))))

/-- Body shared by `canon_nh` and `_normalize_token` in `text.py`:
`_fold_umlauts(str(x).strip().lower())` followed by keeping only
alphanumeric characters. -/
def canonList (s : List Nat) : List Nat :=
  (fold_umlauts ((pyStrip s).map pyLower)).filter pyIsAlnum

/-- `canon_nh` from `text.py`; `none` models Python `None`. -/
def canon_nh (name : Option (List Nat)) : List Nat :=
  match name with
  | none => []
  | some s => canonList s

/-- `_normalize_token` from `text.py` (same body as `canon_nh`). -/
def normalize_token (tok : List Nat) : List Nat := canonList tok

/-- The claim's reference procedure for C4: trim, fold the table, lowercase,
then remove every character that is not an ASCII letter or digit. -/
def asciiAlnum (n : Nat) : Bool :=
  (48 ≤ n && n ≤ 57) || (65 ≤ n && n ≤ 90) || (97 ≤ n && n ≤ 122)

/-- C4's spec-side canonicalization, written from the claim's words (trim,
fold, lowercase, strip to ASCII alphanumerics), to be compared with
`canon_nh`. -/
def canon_claimed (name : Option (List Nat)) : List Nat :=
  match name with
  | none => []
  | some s => ((fold_umlauts (pyStrip s)).map pyLower).filter asciiAlnum

/-- `national_cuisine_vocab` from `text.py`. -/
def national_cuisine_vocab : List (List Nat) :=
  [codes "italian", codes "french", codes "spanish", codes "portuguese",
   codes "greek", codes "turkish", codes "german", codes "polish",
   codes "russian", codes "ukrainian", codes "balkan", codes "hungarian",
   codes "romanian", codes "bulgarian", codes "georgian",
   codes "mexican", codes "argentinian", codes "peruvian", codes "brazilian",
   codes "colombian", codes "venezuelan", codes "caribbean", codes "american",
   codes "texmex",
   codes "lebanese", codes "israeli", codes "palestinian", codes "syrian",
   codes "iraqi", codes "iranian", codes "afghan", codes "moroccan",
   codes "tunisian", codes "algerian", codes "ethiopian", codes "eritrean",
   codes "egyptian", codes "southafrican", codes "nigerian",
   codes "indian", codes "pakistani", codes "bangladeshi", codes "srilankan",
   codes "nepali", codes "chinese", codes "japanese", codes "korean",
   codes "thai", codes "vietnamese", codes "laotian", codes "cambodian",
   codes "indonesian", codes "malaysian", codes "singaporean", codes "filipino"]

/-- `_EXCLUDE_TOKENS` from `text.py` (dish words, not national cuisines). -/
def exclude_tokens : List (List Nat) :=
  [codes "pizza", codes "pasta", codes "sushi", codes "ramen",
   codes "doner", codes "döner", codes "kebab", codes "burger",
   codes "bbq", codes "grill", codes "steak", codes "noodles",
   codes "dumpling", codes "dumplings", codes "sandwich", codes "bakery",
   codes "cafe", codes "coffee", codes "bubbletea", codes "boba",
   codes "falafel"]

/-- Python `"a;b;c".split(";")`. -/
def splitSemi : List Nat → List Nat → List (List Nat)
  | [], acc => [acc.reverse]
  | c :: rest, acc =>
    if c = 59 then acc.reverse :: splitSemi rest []
    else splitSemi rest (c :: acc)

/-- `tokenize_cuisines` from `text.py`, string (and `None`) branch: split on
`;`, normalize each part, drop empty/excluded tokens, keep vocabulary hits. -/
def tokenize_cuisines (cuisines : Option (List Nat)) : List (List Nat) :=
  match cuisines with
  | none => []
  | some s =>
    ((splitSemi s []).map normalize_token).filter
      (fun t => !t.isEmpty && !exclude_tokens.contains t &&
                national_cuisine_vocab.contains t)

/-- `nationals_set` from `text.py`: the token list as a set (deduplicated). -/
def nationals_set (cuisines : Option (List Nat)) : List (List Nat) :=
  (tokenize_cuisines cuisines).dedup

/-! ### Scoring primitives (`labels_mobility.py` / `labels_venues.py`) -/

/-- Insert into a sorted list (ascending). -/
def insertSorted (x : ℚ) : List ℚ → List ℚ
  | [] => [x]
  | y :: ys => if x ≤ y then x :: y :: ys else y :: insertSorted x ys

/-- Ascending sort, as numpy sorts values before interpolating percentiles. -/
def sortAsc (l : List ℚ) : List ℚ := l.foldr insertSorted []

/-- `np.nanpercentile(s, q)` with the default linear interpolation: drop the
null (NaN) entries, sort ascending, and interpolate at fractional index
`q/100 * (n-1)`.  Returns `none` (numpy: NaN) when every entry is null. -/
def nanpercentile (s : List (Option ℚ)) (q : ℚ) : Option ℚ :=
  let vs := sortAsc (s.filterMap id)
  match vs with
  | [] => none
  | _ =>
    let idx : ℚ := q / 100 * ((vs.length : ℚ) - 1)
    let lo := (⌊idx⌋).toNat
    let hi := (⌈idx⌉).toNat
    let frac := idx - (((⌊idx⌋).toNat : ℕ) : ℚ)
    some (vs.getD lo 0 + frac * (vs.getD hi 0 - vs.getD lo 0))

/-- `percentile_score` from `labels_mobility.py` (and `labels_venues.py`):
scale to 0–100 using the p10–p90 caps, `rng = max(p_hi - p_lo, 1e-9)`,
`(s - p_lo)/rng` clipped to `[0, 1]` times 100.  NaN cells stay NaN; when
every cell is NaN all scores are NaN.  `app.py`'s copy adds an early return
of an all-NaN series when no entry is finite, which coincides with this
behaviour. -/
def percentile_score (s : List (Option ℚ)) : List (Option ℚ) :=
  match nanpercentile s 10, nanpercentile s 90 with
  | some plo, some phi =>
    let rng := max (phi - plo) (1 / 1000000000)
    s.map (Option.map (fun v => min (max ((v - plo) / rng) 0) 1 * 100))
  | _, _ => s.map (fun _ => none)

/-- `tercile_labels` from `labels_mobility.py` (identical in
`labels_venues.py`): `q1 = np.nanpercentile(values, 33.333)`,
`q2 = np.nanpercentile(values, 66.666)`; NaN ↦ mid label, `v ≤ q1` ↦ low
label, `v ≥ q2` ↦ high label, otherwise mid.  `labels = (high, mid, low)`.
When the percentiles are NaN (all-null input) the two float comparisons are
false, giving the mid label, which only arises for null cells anyway. -/
def tercile_labels (values : List (Option ℚ)) (labels : String × String × String) :
    List String :=
  let q1 := nanpercentile values (33333 / 1000)
  let q2 := nanpercentile values (66666 / 1000)
  values.map (fun v =>
    match v with
    | none => labels.2.1
    | some x =>
      match q1, q2 with
      | some a, some b =>
        if x ≤ a then labels.2.2 else if b ≤ x then labels.1 else labels.2.1
      | _, _ => labels.2.1)

/-- The claim-side tercile rule for C3, written from the claim's words: the
percentile ranks are 33.33 and 66.67, a null value gets the mid label, a
value `≤ q1` the low label, a value `≥ q2` the high label (asserted to hold
"always", in particular exactly at `q2`), and mid otherwise. -/
def tercile_labels_claimed (values : List (Option ℚ))
    (labels : String × String × String) : List String :=
  let q1 := nanpercentile values (3333 / 100)
  let q2 := nanpercentile values (6667 / 100)
  values.map (fun v =>
    match v with
    | none => labels.2.1
    | some x =>
      match q1, q2 with
      | some a, some b =>
        if b ≤ x then labels.1 else if x ≤ a then labels.2.2 else labels.2.1
      | _, _ => labels.2.1)

/-! ### Composite suitability score (`app.py`) -/

/-- One UI feature in `app.py`: a slider weight, the lower-is-better flag
(crime rate, unemployment), and the underlying metric column of the wide
table. -/
structure Feature where
  weight : ℚ
  invert : Bool
  column : List (Option ℚ)

/-- `compute_component` from `app.py`: negate the raw metric when
`invert` is set, then percentile-score it. -/
def compute_component (column : List (Option ℚ)) (inv : Bool) : List (Option ℚ) :=
  percentile_score (if inv then column.map (Option.map (fun x => -x)) else column)

/-- The `dist_show` / `nei_show` composite in `app.py`: for each feature with
weight > 0 append `compute_component(col) * (w/100)`; the suitability of an
entity is the row-wise sum of the parts (pandas `sum(axis=1)` skips NaN,
contributing 0), or the scalar 0.0 when no feature is selected. -/
def suitability (features : List Feature) (i : Nat) : ℚ :=
  let parts := (features.filter (fun f => decide (0 < f.weight))).map
    (fun f => (compute_component f.column f.invert).map
      (Option.map (fun x => x * (f.weight / 100))))
  if parts.isEmpty then 0
  else (parts.map (fun p => (p.getD i none).getD 0)).sum

/-! ### Error messages and schema checks (`labels_*.py`, `aggregate.py`) -/

/-- Whether `needle` occurs at the start of `hay`. -/
def startsWith : List Nat → List Nat → Bool
  | [], _ => true
  | _ :: _, [] => false
  | a :: as, b :: bs => a == b && startsWith as bs

/-- Python `needle in hay` on strings: `needle` occurs contiguously in
`hay`. -/
def hasSub (needle : List Nat) : List Nat → Bool
  | [] => startsWith needle []
  | c :: rest => startsWith needle (c :: rest) || hasSub needle rest

/-- Python `", ".join(...)`. -/
def joinSep (sep : List Nat) : List (List Nat) → List Nat
  | [] => []
  | [x] => x
  | x :: y :: xs => x ++ sep ++ joinSep sep (y :: xs)

/-- Rendering of a Python `set` of strings inside an f-string, as in
`f"df_parks missing columns: {missing}"`: brace-delimited, each element
quoted, comma-separated (123/125 are the braces, 39 the quote; the
iteration order of the model is the required-column order). -/
def pySetRepr (l : List (List Nat)) : List Nat :=
  [123] ++ joinSep (codes ", ") (l.map (fun m => [39] ++ m ++ [39])) ++ [125]

def parks_required : List (List Nat) :=
  [codes "district_id", codes "neighborhood", codes "size_sqm"]

def playgrounds_required : List (List Nat) :=
  [codes "district_id", codes "neighborhood", codes "green_area_type"]

def venues_required : List (List Nat) :=
  [codes "district_id", codes "neighborhood", codes "cuisine"]

def mobility_agg_required : List (List Nat) :=
  [codes "district_id", codes "neighborhood_id", codes "ubahn_stations",
   codes "bus_tram_stops"]

/-! ### Theme builders (`labels_parks.py`, `labels_playgrounds.py`,
`labels_venues.py`).  A dataframe is modelled as its column-name list plus
its typed rows; the schema check inspects the column names. -/

/-- Raw park record: `district_id`, `neighborhood`, `size_sqm`. -/
structure ParkRaw where
  district_id : Nat
  neighborhood : List Nat
  size_sqm : ℚ

/-- Output row of `compute_parks_labels`. -/
structure ParkAgg where
  district_id : Nat
  neighborhood_canon : List Nat
  green_area_km2 : ℚ

/-- `compute_parks_labels` from `labels_parks.py`: check required columns,
canonicalize the neighborhood, convert m² to km², and group-sum per
`(district_id, neighborhood_canon)`.  The model's group order is first
occurrence (pandas sorts group keys; no claim depends on row order). -/
def compute_parks_labels (cols : List (List Nat)) (rows : List ParkRaw) :
    Except (List Nat) (List ParkAgg) :=
  let missing := parks_required.filter (fun c => !cols.contains c)
  if !missing.isEmpty then
    .error (codes "df_parks missing columns: " ++ pySetRepr missing)
  else
    let keys := (rows.map (fun r => (r.district_id, canonList r.neighborhood))).dedup
    .ok (keys.map (fun k =>
      ⟨k.1, k.2,
        ((rows.filter (fun r => (r.district_id, canonList r.neighborhood) == k)).map
          (fun r => r.size_sqm / 1000000)).sum⟩))

/-- Raw green-space record: `district_id`, `neighborhood`,
`green_area_type`. -/
structure PlayRaw where
  district_id : Nat
  neighborhood : List Nat
  green_area_type : List Nat

/-- Output row of `compute_playgrounds_labels`. -/
structure PlayAgg where
  district_id : Nat
  neighborhood_canon : List Nat
  n_playgrounds : Nat

/-- `compute_playgrounds_labels` from `labels_playgrounds.py`: check required
columns, filter rows whose lowercased category contains "spielplatz", count
per `(district_id, neighborhood_canon)`. -/
def compute_playgrounds_labels (cols : List (List Nat)) (rows : List PlayRaw) :
    Except (List Nat) (List PlayAgg) :=
  let missing := playgrounds_required.filter (fun c => !cols.contains c)
  if !missing.isEmpty then
    .error (codes "df_playgrounds missing columns: " ++ pySetRepr missing)
  else
    let play := rows.filter
      (fun r => hasSub (codes "spielplatz") (r.green_area_type.map pyLower))
    let keys := (play.map (fun r => (r.district_id, canonList r.neighborhood))).dedup
    .ok (keys.map (fun k =>
      ⟨k.1, k.2,
        (play.filter (fun r => (r.district_id, canonList r.neighborhood) == k)).length⟩))

/-- Raw venue record: `district_id`, `neighborhood`, `cuisine` (nullable
semicolon-separated string). -/
structure VenueRaw where
  district_id : Nat
  neighborhood : List Nat
  cuisine : Option (List Nat)

/-- Output row of `compute_venues_features`. -/
structure VenueFeat where
  district_id : Nat
  neighborhood_canon : List Nat
  n_venues : Nat
  n_cuisine_types : Nat

/-- `compute_venues_features` from `labels_venues.py`: check required columns,
count venues per `(district_id, neighborhood_canon)` and the size of the
union of the venues' national-cuisine token sets. -/
def compute_venues_features (cols : List (List Nat)) (rows : List VenueRaw) :
    Except (List Nat) (List VenueFeat) :=
  let missing := venues_required.filter (fun c => !cols.contains c)
  if !missing.isEmpty then
    .error (codes "df_venues missing columns: " ++ pySetRepr missing)
  else
    let keys := (rows.map (fun r => (r.district_id, canonList r.neighborhood))).dedup
    .ok (keys.map (fun k =>
      let grp := rows.filter (fun r => (r.district_id, canonList r.neighborhood) == k)
      ⟨k.1, k.2, grp.length,
        ((grp.flatMap (fun r => nationals_set r.cuisine)).dedup).length⟩))

/-! ### District aggregation (`aggregate.py`) -/

/-- Per-neighborhood mobility label row as consumed by
`aggregate_mobility_to_district` (counts are float-summed by pandas). -/
structure MobRow where
  district_id : Nat
  ubahn_stations : ℚ
  bus_tram_stops : ℚ
  total_stops : ℚ

/-- Per-neighborhood polygon area row (`gdf_nei` columns used by
`_sum_area`). -/
structure AreaRow where
  district_id : Nat
  area_km2 : ℚ
  area_eff_km2 : ℚ

/-- District-level mobility table (columnar, as a pandas frame). -/
structure DistMobTable where
  district_id : List Nat
  ubahn_stations : List ℚ
  bus_tram_stops : List ℚ
  total_stops : List ℚ
  area_eff_km2 : List (Option ℚ)
  connectivity_density : List (Option ℚ)
  mobility_score : List (Option ℚ)
  mobility_label : List String

/-- Sum of a mobility column over the member neighborhoods of district
`d`. -/
def sumUbahn (neis : List MobRow) (d : Nat) : ℚ :=
  ((neis.filter (fun r => r.district_id == d)).map (fun r => r.ubahn_stations)).sum

def sumBus (neis : List MobRow) (d : Nat) : ℚ :=
  ((neis.filter (fun r => r.district_id == d)).map (fun r => r.bus_tram_stops)).sum

def sumTotal (neis : List MobRow) (d : Nat) : ℚ :=
  ((neis.filter (fun r => r.district_id == d)).map (fun r => r.total_stops)).sum

/-- `_sum_area` from `aggregate.py`, looked up per district after the left
merge: the district's summed `area_eff_km2` over member neighborhoods, or
`none` (NaN after a failed left merge) when the district has no rows in
`gdf_nei`. -/
def sumAreaEff (areas : List AreaRow) (d : Nat) : Option ℚ :=
  let g := areas.filter (fun a => a.district_id == d)
  if g.isEmpty then none else some ((g.map (fun a => a.area_eff_km2)).sum)

/-- `aggregate_mobility_to_district` from `aggregate.py`: check the required
columns of `nei_labels` (fixed error message), group-sum the stop counts by
district, left-merge the district-summed effective area, recompute
`connectivity_density = (0.7·ubahn + 0.3·bus) / area_eff`, percentile-score
it and tercile-label the score.  District order in the model is first
occurrence (pandas sorts group keys; no claim depends on row order). -/
def aggregate_mobility_to_district (cols : List (List Nat)) (neis : List MobRow)
    (areas : List AreaRow) : Except (List Nat) DistMobTable :=
  if !(mobility_agg_required.all (fun c => cols.contains c)) then
    .error (codes "nei_labels missing required mobility columns")
  else
    let ds := (neis.map (fun r => r.district_id)).dedup
    let dens := ds.map (fun d =>
      (sumAreaEff areas d).map
        (fun A => ((7 : ℚ)/10 * sumUbahn neis d + 3/10 * sumBus neis d) / A))
    let scores := percentile_score dens
    .ok ⟨ds, ds.map (sumUbahn neis), ds.map (sumBus neis), ds.map (sumTotal neis),
         ds.map (sumAreaEff areas), dens, scores,
         tercile_labels scores ("well-connected", "moderate", "remote")⟩

/-! ### Neighborhood mobility labels (`labels_mobility.py`) -/

/-- Neighborhood polygon with its effective area, as prepared by
`compute_area_km2`. -/
structure Poly where
  district_id : Nat
  neighborhood_id : Nat
  neighborhood : List Nat
  area_eff_km2 : ℚ

/-- Output of `compute_mobility_labels` (columnar). -/
structure MobilityTable where
  district_id : List Nat
  neighborhood_id : List Nat
  neighborhood : List (List Nat)
  neighborhood_canon : List (List Nat)
  ubahn_stations : List Nat
  bus_tram_stops : List Nat
  total_stops : List Nat
  connectivity_density : List ℚ
  mobility_score : List (Option ℚ)
  mobility_label : List String

/-- `compute_mobility_labels` from `labels_mobility.py`, after the spatial
join: `u_pts`/`b_pts` list the polygon index each U-Bahn / bus-tram point was
assigned to (`points_within` output).  Counts per polygon come from
`groupby(poly_index).size()` left-merged back and `fillna(0).astype(int)`;
the weighted density, percentile score, and tercile label follow. -/
def compute_mobility_labels (polys : List Poly) (u_pts b_pts : List Nat) :
    MobilityTable :=
  let cu := fun i => (u_pts.filter (fun p => p == i)).length
  let cb := fun i => (b_pts.filter (fun p => p == i)).length
  let dens := polys.enum.map (fun pi =>
    ((7 : ℚ)/10 * (cu pi.1 : ℚ) + 3/10 * (cb pi.1 : ℚ)) / pi.2.area_eff_km2)
  let scores := percentile_score (dens.map some)
  ⟨polys.map (fun p => p.district_id), polys.map (fun p => p.neighborhood_id),
   polys.map (fun p => p.neighborhood),
   polys.map (fun p => canon_nh (some p.neighborhood)),
   polys.enum.map (fun pi => cu pi.1), polys.enum.map (fun pi => cb pi.1),
   polys.enum.map (fun pi => cu pi.1 + cb pi.1),
   dens, scores, tercile_labels scores ("well-connected", "moderate", "remote")⟩

/-! ### Wide-table merge (`pipeline.py`) -/

/-- pandas `merge(..., how="left")`: each left row paired with every match in
the right table, or with a null payload when there is no match. -/
def joinLeft {α κ γ : Type} [DecidableEq κ] (l : List α) (key : α → κ)
    (r : List (κ × γ)) : List (α × Option γ) :=
  l.flatMap (fun a =>
    match r.filter (fun p => decide (p.1 = key a)) with
    | [] => [(a, none)]
    | ms => ms.map (fun m => (a, some m.2)))

/-- Identity row of the polygon base table built in
`run_all_preprocessing`. -/
structure BaseRow where
  district_id : Nat
  district : List Nat
  neighborhood_id : Nat
  neighborhood : List Nat
  neighborhood_canon : List Nat
  area_km2 : ℚ

/-- The four-column merge key used for the mobility join. -/
def mobMergeKey (b : BaseRow) : Nat × Nat × List Nat × List Nat :=
  (b.district_id, b.neighborhood_id, b.neighborhood, b.neighborhood_canon)

/-- The `(district_id, neighborhood_canon)` merge key used for the parks,
playgrounds, and venues joins. -/
def canonKey (b : BaseRow) : Nat × List Nat := (b.district_id, b.neighborhood_canon)

/-- The "minimal" wide table of `run_all_preprocessing`: base left-joined
with mobility (4-column key) then parks then playgrounds (canonical key).
Theme payloads are abstract; the claims only concern row identity and
null-filling. -/
def merge_minimal {γm γp γg : Type} (base : List BaseRow)
    (mob : List ((Nat × Nat × List Nat × List Nat) × γm))
    (parks : List ((Nat × List Nat) × γp))
    (plays : List ((Nat × List Nat) × γg)) :
    List (((BaseRow × Option γm) × Option γp) × Option γg) :=
  joinLeft (joinLeft (joinLeft base mobMergeKey mob) (fun x => canonKey x.1) parks)
    (fun x => canonKey x.1.1) plays

/-- The "full" (merged) wide table: minimal left-joined with the venue
feature and vibrancy tables on the canonical key. -/
def merge_full {γm γp γg γf γv : Type} (base : List BaseRow)
    (mob : List ((Nat × Nat × List Nat × List Nat) × γm))
    (parks : List ((Nat × List Nat) × γp))
    (plays : List ((Nat × List Nat) × γg))
    (venF : List ((Nat × List Nat) × γf))
    (venV : List ((Nat × List Nat) × γv)) :
    List ((((((BaseRow × Option γm) × Option γp) × Option γg)) × Option γf) × Option γv) :=
  joinLeft (joinLeft (merge_minimal base mob parks plays)
    (fun x => canonKey x.1.1.1) venF) (fun x => canonKey x.1.1.1.1) venV

/-! ## Helper lemmas -/

theorem mem_replaceChar {c k : Nat} {v s : List Nat} (h : c ∈ replaceChar k v s) :
    c ∈ v ∨ (c ∈ s ∧ c ≠ k) := by
  induction s with
  | nil => simp [replaceChar] at h
  | cons a as ih =>
    simp only [replaceChar, List.flatMap_cons] at h
    rcases List.mem_append.mp h with h1 | h2
    · by_cases hak : a = k
      · subst hak; simp at h1; exact Or.inl h1
      · simp only [if_neg hak, List.mem_singleton] at h1
        refine Or.inr ⟨?_, ?_⟩
        · rw [h1]; exact List.mem_cons_self a as
        · rw [h1]; exact hak
    · rcases ih h2 with h3 | ⟨h4, h5⟩
      · exact Or.inl h3
      · exact Or.inr ⟨List.mem_cons_of_mem a h4, h5⟩

theorem replaceChar_eq_self {k : Nat} {v s : List Nat} (h : ∀ c ∈ s, c ≠ k) :
    replaceChar k v s = s := by
  induction s with
  | nil => rfl
  | cons a as ih =>
    simp only [replaceChar, List.flatMap_cons]
    rw [if_neg (h a (List.mem_cons_self a as))]
    simp only [List.singleton_append, List.cons.injEq, true_and]
    exact ih (fun c hc => h c (List.mem_cons_of_mem a hc))

/-- The seven table keys of `UMLAUT_MAP`. -/
def umlautKeys : List Nat := [228, 246, 252, 196, 214, 220, 223]

theorem mem_two_imp {c x y : Nat} {l : List Nat} (h : c ∈ [x, y]) (hx : x ∈ l)
    (hy : y ∈ l) : c ∈ l := by
  rcases List.mem_cons.mp h with rfl | h2
  · exact hx
  · rcases List.mem_cons.mp h2 with rfl | h3
    · exact hy
    · simp at h3

theorem mem_fold_umlauts {c : Nat} {s : List Nat} (h : c ∈ fold_umlauts s) :
    c ∈ [97, 101, 111, 117, 115] ∨ (c ∈ s ∧ ¬ c ∈ umlautKeys) := by
  unfold fold_umlauts at h
  rcases mem_replaceChar h with h1 | ⟨h2, hne7⟩
  · exact Or.inl (mem_two_imp h1 (by decide) (by decide))
  rcases mem_replaceChar h2 with h1 | ⟨h2, hne6⟩
  · exact Or.inl (mem_two_imp h1 (by decide) (by decide))
  rcases mem_replaceChar h2 with h1 | ⟨h2, hne5⟩
  · exact Or.inl (mem_two_imp h1 (by decide) (by decide))
  rcases mem_replaceChar h2 with h1 | ⟨h2, hne4⟩
  · exact Or.inl (mem_two_imp h1 (by decide) (by decide))
  rcases mem_replaceChar h2 with h1 | ⟨h2, hne3⟩
  · exact Or.inl (mem_two_imp h1 (by decide) (by decide))
  rcases mem_replaceChar h2 with h1 | ⟨h2, hne2⟩
  · exact Or.inl (mem_two_imp h1 (by decide) (by decide))
  rcases mem_replaceChar h2 with h1 | ⟨h2, hne1⟩
  · exact Or.inl (mem_two_imp h1 (by decide) (by decide))
  right
  refine ⟨h2, ?_⟩
  intro hmem
  simp only [umlautKeys, List.mem_cons, List.not_mem_nil, or_false] at hmem
  rcases hmem with rfl | rfl | rfl | rfl | rfl | rfl | rfl <;> simp_all

theorem fold_umlauts_eq_self {s : List Nat} (h : ∀ c ∈ s, ¬ c ∈ umlautKeys) :
    fold_umlauts s = s := by
  have hk : ∀ k ∈ umlautKeys, ∀ c ∈ s, c ≠ k := by
    intro k hk c hc he
    exact h c hc (he ▸ hk)
  unfold fold_umlauts
  rw [replaceChar_eq_self (hk 228 (by decide)), replaceChar_eq_self (hk 246 (by decide)),
      replaceChar_eq_self (hk 252 (by decide)), replaceChar_eq_self (hk 196 (by decide)),
      replaceChar_eq_self (hk 214 (by decide)), replaceChar_eq_self (hk 220 (by decide)),
      replaceChar_eq_self (hk 223 (by decide))]

theorem pyLower_idem (n : Nat) : pyLower (pyLower n) = pyLower n := by
  unfold pyLower
  split_ifs <;> omega

theorem pyIsAlnum_not_space {n : Nat} (h : pyIsAlnum n = true) : pyIsSpace n = false := by
  simp only [pyIsAlnum, Bool.or_eq_true, Bool.and_eq_true, decide_eq_true_eq, beq_iff_eq,
    Bool.not_eq_eq_eq_not, Bool.not_true] at h
  simp only [pyIsSpace, Bool.or_eq_false_iff, beq_eq_false_iff_ne]
  omega

theorem dropWhile_eq_self_of {p : Nat → Bool} {s : List Nat}
    (h : ∀ c ∈ s, p c = false) : s.dropWhile p = s := by
  cases s with
  | nil => rfl
  | cons a as => simp [List.dropWhile_cons, h a (List.mem_cons_self a as)]

theorem pyStrip_eq_self {s : List Nat} (h : ∀ c ∈ s, pyIsSpace c = false) :
    pyStrip s = s := by
  unfold pyStrip
  rw [dropWhile_eq_self_of h, dropWhile_eq_self_of (by intro c hc; exact h c (List.mem_reverse.mp hc)),
      List.reverse_reverse]

theorem map_eq_self_of {α : Type} {f : α → α} {s : List α} (h : ∀ c ∈ s, f c = c) :
    s.map f = s := by
  induction s with
  | nil => rfl
  | cons a as ih =>
    simp only [List.map_cons, h a (List.mem_cons_self a as), List.cons.injEq, true_and]
    exact ih (fun c hc => h c (List.mem_cons_of_mem a hc))

theorem mem_canonList {c : Nat} {s : List Nat} (h : c ∈ canonList s) :
    pyIsAlnum c = true ∧ pyLower c = c ∧ ¬ c ∈ umlautKeys := by
  unfold canonList at h
  have h1 := List.mem_filter.mp h
  have hfive : ∀ x ∈ [97, 101, 111, 117, 115], pyLower x = x ∧ ¬ x ∈ umlautKeys := by
    decide
  refine ⟨h1.2, ?_, ?_⟩
  · rcases mem_fold_umlauts h1.1 with h2 | ⟨h2, _⟩
    · exact (hfive c h2).1
    · rcases List.mem_map.mp h2 with ⟨d, _, rfl⟩
      exact pyLower_idem d
  · rcases mem_fold_umlauts h1.1 with h2 | ⟨_, h3⟩
    · exact (hfive c h2).2
    · exact h3

theorem canonList_idem (s : List Nat) : canonList (canonList s) = canonList s := by
  have halnum : ∀ c ∈ canonList s, pyIsAlnum c = true := fun c hc => (mem_canonList hc).1
  have hlower : ∀ c ∈ canonList s, pyLower c = c := fun c hc => (mem_canonList hc).2.1
  have hkeys : ∀ c ∈ canonList s, ¬ c ∈ umlautKeys := fun c hc => (mem_canonList hc).2.2
  conv_lhs => rw [canonList]
  rw [pyStrip_eq_self (fun c hc => pyIsAlnum_not_space (halnum c hc)),
      map_eq_self_of hlower, fold_umlauts_eq_self hkeys,
      List.filter_eq_self.mpr halnum]

/-! ## Claim theorems -/

set_option maxHeartbeats 1600000 in
/-- C4 counterexample: the code's `canon_nh` keeps every character Python
considers alphanumeric, while the claim's reference procedure keeps only
ASCII letters/digits, so they disagree on "Café" (the é survives in the
code); the claim also folds before lowercasing, so they disagree on "ẞ"
(the code lowercases ẞ to ß, then folds it to "ss"; the claim's order
leaves ß, which the ASCII filter then deletes).  Hence a canonical key may
contain a non-ASCII character (é = 233). -/
theorem canon_nh_ne_claimed :
    canon_nh (some (codes "Café")) = codes "café" ∧
    canon_claimed (some (codes "Café")) = codes "caf" ∧
    ¬ canon_nh (some (codes "Café")) = canon_claimed (some (codes "Café")) ∧
    canon_nh (some (codes "ẞ")) = codes "ss" ∧
    canon_claimed (some (codes "ẞ")) = [] ∧
    ¬ canon_nh (some (codes "ẞ")) = canon_claimed (some (codes "ẞ")) ∧
    233 ∈ canon_nh (some (codes "Café")) ∧ asciiAlnum 233 = false := by
  decide

/-- C4 amended: `canon_nh` returns exactly the result of trimming
whitespace, lowercasing, folding the umlaut/ß table, and keeping only the
characters Python's `isalnum` accepts (not necessarily ASCII); null input
gives the empty string, and consequently every character of every canonical
key is alphanumeric in that sense. -/
theorem canon_nh_characterization :
    canon_nh none = [] ∧
    (∀ s, canon_nh (some s) =
      (fold_umlauts ((pyStrip s).map pyLower)).filter pyIsAlnum) ∧
    (∀ s c, c ∈ canon_nh (some s) → pyIsAlnum c = true) := by
  refine ⟨rfl, fun s => rfl, fun s c hc => (mem_canonList (show c ∈ canonList s from hc)).1⟩

/-- C4 amended, witness at a concrete input. -/
theorem canon_nh_characterization_witness :
    pyIsAlnum 109 = true :=
  canon_nh_characterization.2.2 (codes "Mitte") 109 (by decide)

/-- C9: canonicalization is idempotent, `canon_nh (canon_nh x) = canon_nh x`
for every input (including the null input). -/
theorem canon_nh_idem (name : Option (List Nat)) :
    canon_nh (some (canon_nh name)) = canon_nh name := by
  cases name with
  | none => rfl
  | some s => exact canonList_idem s

/-- C7: tokenizing "Italian; Pizza; Japanese; Döner; Vietnamese" yields
exactly the tokens italian, japanese, vietnamese (dish words and
non-vocabulary tokens excluded regardless of case or accents), and every
token produced by `tokenize_cuisines` on any input is in the fixed
national-cuisine vocabulary and outside the dish-word exclusion set. -/
theorem tokenize_cuisines_spec :
    tokenize_cuisines (some (codes "Italian; Pizza; Japanese; Döner; Vietnamese")) =
      [codes "italian", codes "japanese", codes "vietnamese"] ∧
    ∀ s t, t ∈ tokenize_cuisines s →
      t ∈ national_cuisine_vocab ∧ ¬ t ∈ exclude_tokens := by
  constructor
  · decide
  · intro s t ht
    cases s with
    | none => simp [tokenize_cuisines] at ht
    | some l =>
      unfold tokenize_cuisines at ht
      have h := (List.mem_filter.mp ht).2
      simp only [Bool.and_eq_true, Bool.not_eq_eq_eq_not, Bool.not_true] at h
      refine ⟨List.mem_of_elem_eq_true h.2, ?_⟩
      intro hmem
      have hfalse : List.elem t exclude_tokens = false := h.1.2
      rw [List.elem_eq_true_of_mem hmem] at hfalse
      exact Bool.noConfusion hfalse

/-- C7 witness: the universally quantified part at a concrete input. -/
theorem tokenize_cuisines_spec_witness :
    codes "greek" ∈ national_cuisine_vocab ∧
    ¬ codes "greek" ∈ exclude_tokens :=
  tokenize_cuisines_spec.2 (some (codes "Greek")) (codes "greek") (by decide)

/-! ## List and percentile helper lemmas -/

theorem getD_map_eq {α β : Type} (f : α → β) (l : List α) (i : Nat) (d : α)
    (d' : β) (hd : f d = d') : (l.map f).getD i d' = f (l.getD i d) := by
  induction l generalizing i with
  | nil => simpa [List.getD] using hd.symm
  | cons a as ih =>
    cases i with
    | zero => rfl
    | succ j => simpa [List.getD] using ih j

theorem getD_map_lt {α β : Type} (f : α → β) {l : List α} {i : Nat}
    (h : i < l.length) (d : α) (d' : β) : (l.map f).getD i d' = f (l.getD i d) := by
  induction l generalizing i with
  | nil => simp at h
  | cons a as ih =>
    cases i with
    | zero => rfl
    | succ j =>
      simp only [List.length_cons, Nat.succ_lt_succ_iff] at h
      simpa [List.getD] using ih h

theorem getD_mem_of_some {s : List (Option ℚ)} {i : Nat} {v : ℚ}
    (h : s.getD i none = some v) : some v ∈ s := by
  induction s generalizing i with
  | nil => simp [List.getD] at h
  | cons a as ih =>
    cases i with
    | zero =>
      have ha : a = some v := by simpa [List.getD, List.get?] using h
      subst ha
      exact List.mem_cons_self _ _
    | succ j =>
      simp only [List.getD] at h ih
      exact List.mem_cons_of_mem a (ih h)

theorem length_insertSorted (x : ℚ) (l : List ℚ) :
    (insertSorted x l).length = l.length + 1 := by
  induction l with
  | nil => rfl
  | cons y ys ih =>
    unfold insertSorted
    split_ifs with h
    · rfl
    · simpa using ih

theorem length_sortAsc (l : List ℚ) : (sortAsc l).length = l.length := by
  induction l with
  | nil => rfl
  | cons y ys ih => simp [sortAsc, List.foldr_cons, length_insertSorted] at *; omega

theorem sortAsc_eq_nil_iff (l : List ℚ) : sortAsc l = [] ↔ l = [] := by
  constructor
  · intro h
    have := length_sortAsc l
    rw [h] at this
    exact List.length_eq_zero.mp this.symm
  · intro h; rw [h]; rfl

/-- Evaluation rule for `nanpercentile` on a concrete list, with the sorted
list and the floor/ceiling of the interpolation index supplied. -/
theorem nanpercentile_eval (s : List (Option ℚ)) (q v : ℚ) (vs : List ℚ)
    (l h : ℕ) (hvs : sortAsc (s.filterMap id) = vs) (hne : vs ≠ [])
    (hfl : ⌊q / 100 * ((vs.length : ℚ) - 1)⌋ = (l : ℤ))
    (hcl : ⌈q / 100 * ((vs.length : ℚ) - 1)⌉ = (h : ℤ))
    (hv : vs.getD l 0 + (q / 100 * ((vs.length : ℚ) - 1) - (l : ℚ)) *
      (vs.getD h 0 - vs.getD l 0) = v) :
    nanpercentile s q = some v := by
  unfold nanpercentile
  rw [hvs]
  cases vs with
  | nil => exact absurd rfl hne
  | cons a as =>
    simp only [hfl, hcl, Int.toNat_natCast] at *
    rw [hv]

theorem nanpercentile_eq_none_iff (s : List (Option ℚ)) (q : ℚ) :
    nanpercentile s q = none ↔ s.filterMap id = [] := by
  unfold nanpercentile
  rcases hvs : sortAsc (s.filterMap id) with _ | ⟨a, as⟩
  · simp only [hvs]
    exact iff_of_true (by simp) ((sortAsc_eq_nil_iff _).mp hvs)
  · simp only [hvs]
    constructor
    · intro hcontra; exact Option.noConfusion hcontra
    · intro hnil
      rw [hnil] at hvs
      exact absurd hvs.symm (by simp [sortAsc])

theorem nanpercentile_isSome_of_getD {s : List (Option ℚ)} {i : Nat} {v : ℚ}
    (hv : s.getD i none = some v) (q : ℚ) : ∃ p, nanpercentile s q = some p := by
  cases hp : nanpercentile s q with
  | some p => exact ⟨p, rfl⟩
  | none =>
    have hemp := (nanpercentile_eq_none_iff s q).mp hp
    have hmem : v ∈ s.filterMap id :=
      List.mem_filterMap.mpr ⟨some v, getD_mem_of_some hv, rfl⟩
    rw [hemp] at hmem
    simp at hmem

theorem percentile_score_length (s : List (Option ℚ)) :
    (percentile_score s).length = s.length := by
  unfold percentile_score
  cases nanpercentile s 10 <;> cases nanpercentile s 90 <;> simp

theorem percentile_score_getD_some (s : List (Option ℚ)) (plo phi : ℚ)
    (h10 : nanpercentile s 10 = some plo) (h90 : nanpercentile s 90 = some phi)
    (i : Nat) :
    (percentile_score s).getD i none = Option.map
      (fun v => min (max ((v - plo) / max (phi - plo) (1/1000000000)) 0) 1 * 100)
      (s.getD i none) := by
  unfold percentile_score
  rw [h10, h90]
  exact getD_map_eq _ _ _ none _ rfl

theorem percentile_score_getD_of_none (s : List (Option ℚ))
    (h : nanpercentile s 10 = none) (i : Nat) :
    (percentile_score s).getD i none = none := by
  unfold percentile_score
  rw [h]
  exact getD_map_eq _ _ _ none _ rfl

/-- C2: `percentile_score` is null exactly at the null entries (all-null in,
all-null out), every non-null score is the clamped affine rescaling by the
10th/90th percentiles of the non-null values with the 1e-9 range floor, and
every non-null score lies in [0, 100]. -/
theorem percentile_score_correct (s : List (Option ℚ)) :
    (percentile_score s).length = s.length ∧
    (∀ i, (percentile_score s).getD i none = none ↔ s.getD i none = none) ∧
    (∀ i v plo phi, s.getD i none = some v → nanpercentile s 10 = some plo →
      nanpercentile s 90 = some phi →
      (percentile_score s).getD i none =
        some (min (max ((v - plo) / max (phi - plo) (1/1000000000)) 0) 1 * 100)) ∧
    (∀ i y, (percentile_score s).getD i none = some y → 0 ≤ y ∧ y ≤ 100) := by
  refine ⟨percentile_score_length s, ?_, ?_, ?_⟩
  · intro i
    cases h10 : nanpercentile s 10 with
    | none =>
      rw [percentile_score_getD_of_none s h10 i]
      refine ⟨fun _ => ?_, fun _ => rfl⟩
      cases hv : s.getD i none with
      | none => rfl
      | some v =>
        rcases nanpercentile_isSome_of_getD hv 10 with ⟨p, hp⟩
        rw [hp] at h10
        exact Option.noConfusion h10
    | some plo =>
      have hemp : s.filterMap id ≠ [] := by
        intro hnil
        rw [(nanpercentile_eq_none_iff s 10).mpr hnil] at h10
        exact Option.noConfusion h10
      cases h90 : nanpercentile s 90 with
      | none => exact absurd ((nanpercentile_eq_none_iff s 90).mp h90) hemp
      | some phi =>
        rw [percentile_score_getD_some s plo phi h10 h90 i]
        cases s.getD i none <;> simp
  · intro i v plo phi hv h10 h90
    rw [percentile_score_getD_some s plo phi h10 h90 i, hv]
    rfl
  · intro i y hy
    cases h10 : nanpercentile s 10 with
    | none =>
      rw [percentile_score_getD_of_none s h10 i] at hy
      exact Option.noConfusion hy
    | some plo =>
      have hemp : s.filterMap id ≠ [] := by
        intro hnil
        rw [(nanpercentile_eq_none_iff s 10).mpr hnil] at h10
        exact Option.noConfusion h10
      cases h90 : nanpercentile s 90 with
      | none => exact absurd ((nanpercentile_eq_none_iff s 90).mp h90) hemp
      | some phi =>
        rw [percentile_score_getD_some s plo phi h10 h90 i] at hy
        cases hval : s.getD i none with
        | none => rw [hval] at hy; exact Option.noConfusion hy
        | some v =>
          rw [hval] at hy
          have hyv := Option.some.inj hy
          set x := (v - plo) / max (phi - plo) (1/1000000000) with hx
          have h0 : (0 : ℚ) ≤ min (max x 0) 1 :=
            le_min (le_max_right _ _) zero_le_one
          have h1 : min (max x 0) 1 ≤ 1 := min_le_right _ _
          constructor
          · rw [← hyv]; positivity
          · rw [← hyv]
            calc min (max x 0) 1 * 100 ≤ 1 * 100 := by
                  exact mul_le_mul_of_nonneg_right h1 (by norm_num)
              _ = 100 := by norm_num

/-- C2 witness: the rescaling formula at a concrete series. -/
theorem percentile_score_correct_witness :
    (percentile_score [some 0, some 10]).getD 0 none =
      some (min (max (((0 : ℚ) - 1) / max (9 - 1) (1/1000000000)) 0) 1 * 100) := by
  have h10 : nanpercentile [some 0, some 10] 10 = some 1 := by
    apply nanpercentile_eval _ _ _ [0, 10] 0 1
    · norm_num [sortAsc, insertSorted, List.filterMap]
    · simp
    · rw [Int.floor_eq_iff] <;> norm_num
    · rw [Int.ceil_eq_iff] <;> norm_num
    · norm_num [List.getD]
  have h90 : nanpercentile [some 0, some 10] 90 = some 9 := by
    apply nanpercentile_eval _ _ _ [0, 10] 0 1
    · norm_num [sortAsc, insertSorted, List.filterMap]
    · simp
    · rw [Int.floor_eq_iff] <;> norm_num
    · rw [Int.ceil_eq_iff] <;> norm_num
    · norm_num [List.getD]
  exact (percentile_score_correct [some 0, some 10]).2.2.1 0 0 1 9 rfl h10 h90

/-! ## Tercile labels (C3) -/

/-- C3 amended: `tercile_labels` computes `q1`/`q2` as the 33.333rd and
66.666th percentiles (not 33.33/66.67); a null value gets the mid label, a
value `≤ q1` the low label, then a value `≥ q2` the high label, and mid
otherwise.  In particular a value exactly equal to `q2` receives the high
label whenever `q2 > q1`, but the low label when `q2 = q1` (the `≤ q1` test
is applied first). -/
theorem tercile_labels_correct (values : List (Option ℚ))
    (labels : String × String × String) :
    (∀ i, i < values.length → values.getD i none = none →
      (tercile_labels values labels).getD i "" = labels.2.1) ∧
    (∀ i x a b, i < values.length → values.getD i none = some x →
      nanpercentile values (33333/1000) = some a →
      nanpercentile values (66666/1000) = some b →
      (tercile_labels values labels).getD i "" =
        (if x ≤ a then labels.2.2 else if b ≤ x then labels.1 else labels.2.1)) ∧
    (∀ i x a b, i < values.length → values.getD i none = some x →
      nanpercentile values (33333/1000) = some a →
      nanpercentile values (66666/1000) = some b →
      a < b → x = b → (tercile_labels values labels).getD i "" = labels.1) := by
  refine ⟨?_, ?_, ?_⟩
  · intro i hi hv
    unfold tercile_labels
    rw [getD_map_lt _ hi none "", hv]
  · intro i x a b hi hv h1 h2
    unfold tercile_labels
    rw [getD_map_lt _ hi none "", hv, h1, h2]
  · intro i x a b hi hv h1 h2 hab hxb
    have hmain : (tercile_labels values labels).getD i "" =
        (if x ≤ a then labels.2.2 else if b ≤ x then labels.1 else labels.2.1) := by
      unfold tercile_labels
      rw [getD_map_lt _ hi none "", hv, h1, h2]
    rw [hmain,
        if_neg (fun hle => absurd (lt_of_lt_of_le hab (hxb ▸ hle)) (lt_irrefl a)),
        hxb, if_pos le_rfl]

/-- C3 counterexample: on the constant series [5, 5, 5] the claim's `q2`
(the 66.67th percentile) is 5 and the claim demands the high label for the
value 5, but the code gives every entry the low label; on [0, 0, 1, 2] the
claim's percentiles are q1 = 0 and q2 = 1.0001, so the claim assigns the
value 1 the mid label, but the code (whose `q2` is the 66.666th percentile
0.99998) labels it high.  `tercile_labels_claimed` is the claim's rule. -/
theorem tercile_labels_claim_counterexample :
    tercile_labels [some 5, some 5, some 5] ("high", "mid", "low") =
      ["low", "low", "low"] ∧
    tercile_labels_claimed [some 5, some 5, some 5] ("high", "mid", "low") =
      ["high", "high", "high"] ∧
    nanpercentile [some 5, some 5, some 5] (6667/100) = some 5 ∧
    tercile_labels [some 0, some 0, some 1, some 2] ("high", "mid", "low") =
      ["low", "low", "high", "high"] ∧
    tercile_labels_claimed [some 0, some 0, some 1, some 2] ("high", "mid", "low") =
      ["low", "low", "mid", "high"] ∧
    nanpercentile [some 0, some 0, some 1, some 2] (3333/100) = some 0 ∧
    nanpercentile [some 0, some 0, some 1, some 2] (6667/100) = some (10001/10000) := by
  have h33 : nanpercentile [some 5, some 5, some 5] (33333/1000) = some 5 := by
    apply nanpercentile_eval _ _ _ [5, 5, 5] 0 1
    · norm_num [sortAsc, insertSorted, List.filterMap]
    · simp
    · rw [Int.floor_eq_iff] <;> norm_num
    · rw [Int.ceil_eq_iff] <;> norm_num
    · norm_num [List.getD]
  have h66 : nanpercentile [some 5, some 5, some 5] (66666/1000) = some 5 := by
    apply nanpercentile_eval _ _ _ [5, 5, 5] 1 2
    · norm_num [sortAsc, insertSorted, List.filterMap]
    · simp
    · rw [Int.floor_eq_iff] <;> norm_num
    · rw [Int.ceil_eq_iff] <;> norm_num
    · norm_num [List.getD]
  have h33c : nanpercentile [some 5, some 5, some 5] (3333/100) = some 5 := by
    apply nanpercentile_eval _ _ _ [5, 5, 5] 0 1
    · norm_num [sortAsc, insertSorted, List.filterMap]
    · simp
    · rw [Int.floor_eq_iff] <;> norm_num
    · rw [Int.ceil_eq_iff] <;> norm_num
    · norm_num [List.getD]
  have h66c : nanpercentile [some 5, some 5, some 5] (6667/100) = some 5 := by
    apply nanpercentile_eval _ _ _ [5, 5, 5] 1 2
    · norm_num [sortAsc, insertSorted, List.filterMap]
    · simp
    · rw [Int.floor_eq_iff] <;> norm_num
    · rw [Int.ceil_eq_iff] <;> norm_num
    · norm_num [List.getD]
  have g1 : nanpercentile [some 0, some 0, some 1, some 2] (33333/1000) = some 0 := by
    apply nanpercentile_eval _ _ _ [0, 0, 1, 2] 0 1
    · norm_num [sortAsc, insertSorted, List.filterMap]
    · simp
    · rw [Int.floor_eq_iff] <;> norm_num
    · rw [Int.ceil_eq_iff] <;> norm_num
    · norm_num [List.getD]
  have g2 : nanpercentile [some 0, some 0, some 1, some 2] (66666/1000) =
      some (49999/50000) := by
    apply nanpercentile_eval _ _ _ [0, 0, 1, 2] 1 2
    · norm_num [sortAsc, insertSorted, List.filterMap]
    · simp
    · rw [Int.floor_eq_iff] <;> norm_num
    · rw [Int.ceil_eq_iff] <;> norm_num
    · norm_num [List.getD]
  have g1c : nanpercentile [some 0, some 0, some 1, some 2] (3333/100) = some 0 := by
    apply nanpercentile_eval _ _ _ [0, 0, 1, 2] 0 1
    · norm_num [sortAsc, insertSorted, List.filterMap]
    · simp
    · rw [Int.floor_eq_iff] <;> norm_num
    · rw [Int.ceil_eq_iff] <;> norm_num
    · norm_num [List.getD]
  have g2c : nanpercentile [some 0, some 0, some 1, some 2] (6667/100) =
      some (10001/10000) := by
    apply nanpercentile_eval _ _ _ [0, 0, 1, 2] 2 3
    · norm_num [sortAsc, insertSorted, List.filterMap]
    · simp
    · rw [Int.floor_eq_iff] <;> norm_num
    · rw [Int.ceil_eq_iff] <;> norm_num
    · norm_num [List.getD]
  refine ⟨?_, ?_, h66c, ?_, ?_, g1c, g2c⟩
  · unfold tercile_labels
    rw [h33, h66]
    norm_num
  · unfold tercile_labels_claimed
    rw [h33c, h66c]
    norm_num
  · unfold tercile_labels
    rw [g1, g2]
    norm_num
  · unfold tercile_labels_claimed
    rw [g1c, g2c]
    norm_num

/-- C3 amended witness: the value 1 in [0, 0, 1, 2] lies at or above the
code's `q2` = 0.99998 and receives the high label. -/
theorem tercile_labels_correct_witness :
    (tercile_labels [some 0, some 0, some 1, some 2]
      ("high", "mid", "low")).getD 2 "" = "high" := by
  have g1 : nanpercentile [some 0, some 0, some 1, some 2] (33333/1000) = some 0 := by
    apply nanpercentile_eval _ _ _ [0, 0, 1, 2] 0 1
    · norm_num [sortAsc, insertSorted, List.filterMap]
    · simp
    · rw [Int.floor_eq_iff] <;> norm_num
    · rw [Int.ceil_eq_iff] <;> norm_num
    · norm_num [List.getD]
  have g2 : nanpercentile [some 0, some 0, some 1, some 2] (66666/1000) =
      some (49999/50000) := by
    apply nanpercentile_eval _ _ _ [0, 0, 1, 2] 1 2
    · norm_num [sortAsc, insertSorted, List.filterMap]
    · simp
    · rw [Int.floor_eq_iff] <;> norm_num
    · rw [Int.ceil_eq_iff] <;> norm_num
    · norm_num [List.getD]
  have := (tercile_labels_correct [some 0, some 0, some 1, some 2]
    ("high", "mid", "low")).2.1 2 1 0 (49999/50000) (by norm_num) rfl g1 g2
  rw [this]
  norm_num

/-! ## Composite suitability (C1) -/

/-- C1: with zero selected features (every weight 0) the composite is the
scalar 0 for every entity; otherwise it is the sum over the features with
weight > 0 of the feature's percentile score (the metric negated before
scoring when the feature is lower-is-better) times weight/100 (a null score
contributing 0), with no renormalization by total weight; hence a single
selected feature's contribution is linear in its weight (doubling the
weight doubles the composite). -/
theorem suitability_correct :
    (∀ features i, (∀ f ∈ features, ¬ 0 < f.weight) → suitability features i = 0) ∧
    (∀ features i, suitability features i =
      ((features.filter (fun f => decide (0 < f.weight))).map
        (fun f => ((compute_component f.column f.invert).getD i none).getD 0 *
          (f.weight / 100))).sum) ∧
    (∀ w inv col i,
      suitability [⟨2 * w, inv, col⟩] i = 2 * suitability [⟨w, inv, col⟩] i) := by
  have hpart : ∀ (f : Feature) (i : Nat),
      ((((compute_component f.column f.invert).map
          (Option.map (fun x => x * (f.weight / 100)))).getD i none).getD 0) =
        ((compute_component f.column f.invert).getD i none).getD 0 * (f.weight / 100) := by
    intro f i
    rw [getD_map_eq (Option.map (fun x => x * (f.weight / 100))) _ i none none rfl]
    cases (compute_component f.column f.invert).getD i none with
    | none => simp
    | some x => rfl
  have hmain : ∀ features i, suitability features i =
      ((features.filter (fun f => decide (0 < f.weight))).map
        (fun f => ((compute_component f.column f.invert).getD i none).getD 0 *
          (f.weight / 100))).sum := by
    intro features i
    unfold suitability
    cases hf : features.filter (fun f => decide (0 < f.weight)) with
    | nil => simp
    | cons g gs =>
      simp only [List.map_map, List.isEmpty_cons, List.map_cons, Bool.false_eq_true,
        if_false, List.sum_cons, Function.comp]
      rw [hpart g i]
      refine congrArg (fun t => _ + t) (congrArg List.sum (List.map_congr_left ?_))
      intro f _
      exact hpart f i
  refine ⟨?_, hmain, ?_⟩
  · intro features i hzero
    unfold suitability
    have hf : features.filter (fun f => decide (0 < f.weight)) = [] := by
      rw [List.filter_eq_nil_iff]
      intro f hfm
      simp only [decide_eq_true_eq]
      exact hzero f hfm
    rw [hf]
    simp
  · intro w inv col i
    by_cases hw : 0 < w
    · have h2 : (0 : ℚ) < 2 * w := by linarith
      rw [hmain, hmain]
      simp only [List.filter_cons, decide_eq_true_eq, h2, hw, if_pos, List.filter_nil,
        List.map_cons, List.map_nil, List.sum_cons, List.sum_nil]
      ring
    · have h2 : ¬ (0 : ℚ) < 2 * w := by
        intro hcon; exact hw (by linarith)
      rw [hmain, hmain]
      simp only [List.filter_cons, decide_eq_true_eq, h2, hw, if_false, List.filter_nil,
        List.map_nil, List.sum_nil]
      norm_num

/-- C1 witness: zero selected features give composite 0 (applied to a
concrete one-feature configuration with weight 0). -/
theorem suitability_correct_witness :
    suitability [⟨0, false, [some 3]⟩] 0 = 0 := by
  apply suitability_correct.1
  intro f hf
  simp only [List.mem_singleton] at hf
  rw [hf]
  norm_num

/-! ## District mobility aggregation (C5) -/

/-- C5: for every district row of `aggregate_mobility_to_district`,
`connectivity_density` is `(0.7·Σubahn + 0.3·Σbus) / Σarea_eff` with the
sums running over the district's member neighborhoods (null when the
district has no polygon rows), `mobility_score` is `percentile_score` of the
district densities, and `mobility_label` is `tercile_labels` of the district
scores — recomputed from district sums, not averaged from neighborhood
scores: on a concrete two-neighborhood district the aggregated density
17/40 differs from the mean 17/20 of the two neighborhood densities. -/
theorem aggregate_mobility_correct :
    (∀ cols neis areas T, aggregate_mobility_to_district cols neis areas = .ok T →
      (∀ i, i < T.district_id.length →
        T.connectivity_density.getD i none =
          (sumAreaEff areas (T.district_id.getD i 0)).map
            (fun A => ((7 : ℚ)/10 * sumUbahn neis (T.district_id.getD i 0) +
              3/10 * sumBus neis (T.district_id.getD i 0)) / A)) ∧
      T.mobility_score = percentile_score T.connectivity_density ∧
      T.mobility_label =
        tercile_labels T.mobility_score ("well-connected", "moderate", "remote")) ∧
    (∃ T2, aggregate_mobility_to_district mobility_agg_required
        [⟨7, 2, 1, 3⟩, ⟨7, 0, 0, 0⟩] [⟨7, 1, 1⟩, ⟨7, 3, 3⟩] = .ok T2 ∧
      T2.connectivity_density.getD 0 none = some (17/40) ∧
      ((17 : ℚ)/40) ≠ ((17/10 : ℚ) + 0/3) / 2) := by
  constructor
  · intro cols neis areas T h
    unfold aggregate_mobility_to_district at h
    cases hcond : (!(mobility_agg_required.all fun c => cols.contains c)) with
    | true =>
      rw [hcond] at h
      simp at h
    | false =>
      rw [hcond] at h
      simp only [Bool.false_eq_true, if_false, Except.ok.injEq] at h
      subst h
      refine ⟨?_, rfl, rfl⟩
      intro i hi
      exact getD_map_lt _ hi 0 none
  · unfold aggregate_mobility_to_district
    rw [show (!(mobility_agg_required.all
        fun c => mobility_agg_required.contains c)) = false by decide]
    simp only [Bool.false_eq_true, if_false]
    refine ⟨_, rfl, ?_, by norm_num⟩
    have hds : ((([⟨7, 2, 1, 3⟩, ⟨7, 0, 0, 0⟩] : List MobRow).map
        (fun r => r.district_id)).dedup) = [7] := by decide
    norm_num [hds, sumAreaEff, sumUbahn, sumBus, List.getD]

/-- C5 witness: the score/label recomputation equations at a concrete
aggregated table. -/
theorem aggregate_mobility_correct_witness :
    ∃ T2, aggregate_mobility_to_district mobility_agg_required
        [⟨7, 2, 1, 3⟩, ⟨7, 0, 0, 0⟩] [⟨7, 1, 1⟩, ⟨7, 3, 3⟩] = .ok T2 ∧
      T2.mobility_score = percentile_score T2.connectivity_density := by
  obtain ⟨T2, hT2, _, _⟩ := aggregate_mobility_correct.2
  exact ⟨T2, hT2, (aggregate_mobility_correct.1 _ _ _ _ hT2).2.1⟩

/-! ## Error-message helper lemmas (C8) -/

theorem startsWith_append_self (m t : List Nat) : startsWith m (m ++ t) = true := by
  induction m with
  | nil => rfl
  | cons a as ih => simp [startsWith, ih]

theorem hasSub_nil_needle (t : List Nat) : hasSub [] t = true := by
  cases t with
  | nil => rfl
  | cons c rest => simp [hasSub, startsWith]

theorem hasSub_self_append (m t : List Nat) : hasSub m (m ++ t) = true := by
  cases m with
  | nil => exact hasSub_nil_needle t
  | cons a as =>
    show hasSub (a :: as) (a :: (as ++ t)) = true
    unfold hasSub
    have hsw : startsWith (a :: as) (a :: (as ++ t)) = true := by
      have := startsWith_append_self (a :: as) t
      simpa using this
    rw [hsw]
    rfl

theorem hasSub_append_left (m s t : List Nat) (h : hasSub m t = true) :
    hasSub m (s ++ t) = true := by
  induction s with
  | nil => exact h
  | cons c cs ih =>
    show hasSub m (c :: (cs ++ t)) = true
    unfold hasSub
    rw [ih]
    simp

theorem hasSub_of_decomp (m x y hay : List Nat) (h : hay = x ++ (m ++ y)) :
    hasSub m hay = true := by
  subst h
  exact hasSub_append_left m x (m ++ y) (hasSub_self_append m y)

theorem joinSep_decomp (sep : List Nat) (l : List (List Nat)) (m : List Nat)
    (h : m ∈ l) : ∃ x y, joinSep sep l = x ++ (m ++ y) := by
  induction l with
  | nil => simp at h
  | cons e rest ih =>
    rcases List.mem_cons.mp h with rfl | hmem
    · cases rest with
      | nil => exact ⟨[], [], by simp [joinSep]⟩
      | cons f fs =>
        exact ⟨[], sep ++ joinSep sep (f :: fs), by simp [joinSep, List.append_assoc]⟩
    · have hne : rest ≠ [] := by
        intro hcon; rw [hcon] at hmem; simp at hmem
      cases rest with
      | nil => exact absurd rfl hne
      | cons f fs =>
        obtain ⟨x, y, hxy⟩ := ih hmem
        exact ⟨e ++ sep ++ x, y, by simp [joinSep, hxy, List.append_assoc]⟩

theorem hasSub_pySetRepr (m : List Nat) (l : List (List Nat)) (pre : List Nat)
    (h : m ∈ l) : hasSub m (pre ++ pySetRepr l) = true := by
  have hq : ([39] ++ m ++ [39]) ∈ l.map (fun e => [39] ++ e ++ [39]) :=
    List.mem_map.mpr ⟨m, h, rfl⟩
  obtain ⟨x, y, hxy⟩ := joinSep_decomp (codes ", ") _ _ hq
  refine hasSub_of_decomp m (pre ++ [123] ++ x ++ [39]) ([39] ++ y ++ [125]) _ ?_
  unfold pySetRepr
  rw [hxy]
  simp [List.append_assoc]

/-! ## Builder schema checks (C8) -/

/-- C8 amended: every theme builder raises before computing any metric when
a required column is absent, producing no output; for parks, playgrounds,
and venues the error message names every missing column, while
`aggregate_mobility_to_district` raises the fixed message "nei_labels
missing required mobility columns", which names the offending table but not
the individual missing columns. -/
theorem builders_validate_columns :
    (∀ cols rows, parks_required.filter (fun c => !cols.contains c) ≠ [] →
      compute_parks_labels cols rows = .error (codes "df_parks missing columns: " ++
        pySetRepr (parks_required.filter (fun c => !cols.contains c))) ∧
      ∀ m ∈ parks_required.filter (fun c => !cols.contains c),
        hasSub m (codes "df_parks missing columns: " ++
          pySetRepr (parks_required.filter (fun c => !cols.contains c))) = true) ∧
    (∀ cols rows, playgrounds_required.filter (fun c => !cols.contains c) ≠ [] →
      compute_playgrounds_labels cols rows =
        .error (codes "df_playgrounds missing columns: " ++
          pySetRepr (playgrounds_required.filter (fun c => !cols.contains c))) ∧
      ∀ m ∈ playgrounds_required.filter (fun c => !cols.contains c),
        hasSub m (codes "df_playgrounds missing columns: " ++
          pySetRepr (playgrounds_required.filter (fun c => !cols.contains c))) = true) ∧
    (∀ cols rows, venues_required.filter (fun c => !cols.contains c) ≠ [] →
      compute_venues_features cols rows =
        .error (codes "df_venues missing columns: " ++
          pySetRepr (venues_required.filter (fun c => !cols.contains c))) ∧
      ∀ m ∈ venues_required.filter (fun c => !cols.contains c),
        hasSub m (codes "df_venues missing columns: " ++
          pySetRepr (venues_required.filter (fun c => !cols.contains c))) = true) ∧
    (∀ cols neis areas, mobility_agg_required.all (fun c => cols.contains c) = false →
      aggregate_mobility_to_district cols neis areas =
        .error (codes "nei_labels missing required mobility columns")) := by
  refine ⟨?_, ?_, ?_, ?_⟩
  · intro cols rows hne
    constructor
    · unfold compute_parks_labels
      cases hm : parks_required.filter (fun c => !cols.contains c) with
      | nil => exact absurd hm hne
      | cons a as => rfl
    · intro m hmem
      exact hasSub_pySetRepr m _ _ hmem
  · intro cols rows hne
    constructor
    · unfold compute_playgrounds_labels
      cases hm : playgrounds_required.filter (fun c => !cols.contains c) with
      | nil => exact absurd hm hne
      | cons a as => rfl
    · intro m hmem
      exact hasSub_pySetRepr m _ _ hmem
  · intro cols rows hne
    constructor
    · unfold compute_venues_features
      cases hm : venues_required.filter (fun c => !cols.contains c) with
      | nil => exact absurd hm hne
      | cons a as => rfl
    · intro m hmem
      exact hasSub_pySetRepr m _ _ hmem
  · intro cols neis areas hall
    unfold aggregate_mobility_to_district
    rw [hall]
    rfl

/-- C8 witness: the parks builder aborts with a message naming the missing
columns when run on a table with no columns. -/
theorem builders_validate_columns_witness :
    compute_parks_labels [] [] = .error (codes "df_parks missing columns: " ++
      pySetRepr (parks_required.filter
        (fun c => !([] : List (List Nat)).contains c))) :=
  (builders_validate_columns.1 [] [] (by decide)).1

/-- C8 counterexample: `aggregate_mobility_to_district` on a table having
only `district_id` aborts with the fixed message "nei_labels missing
required mobility columns", which does not mention the missing column
`ubahn_stations` — the builders do not uniformly name the missing
columns. -/
theorem aggregate_mobility_message_counterexample :
    aggregate_mobility_to_district [codes "district_id"] [] [] =
      .error (codes "nei_labels missing required mobility columns") ∧
    hasSub (codes "ubahn_stations")
      (codes "nei_labels missing required mobility columns") = false ∧
    (codes "ubahn_stations") ∈ mobility_agg_required.filter
      (fun c => !([codes "district_id"] : List (List Nat)).contains c) := by
  refine ⟨?_, by decide, by decide⟩
  unfold aggregate_mobility_to_district
  rw [show (mobility_agg_required.all
      fun c => ([codes "district_id"] : List (List Nat)).contains c) = false by decide]
  rfl

/-! ## Left-merge helper lemmas (C6) -/

theorem joinLeft_cons {α κ γ : Type} [DecidableEq κ] (a : α) (l : List α)
    (key : α → κ) (r : List (κ × γ)) :
    joinLeft (a :: l) key r =
      (match r.filter (fun p => decide (p.1 = key a)) with
        | [] => [(a, none)]
        | ms => ms.map (fun m => (a, some m.2))) ++ joinLeft l key r := rfl

theorem joinLeft_map_fst {α κ γ : Type} [DecidableEq κ] (l : List α) (key : α → κ)
    (r : List (κ × γ))
    (hr : ∀ k, (r.filter (fun p => decide (p.1 = k))).length ≤ 1) :
    (joinLeft l key r).map Prod.fst = l := by
  induction l with
  | nil => rfl
  | cons a as ih =>
    rw [joinLeft_cons, List.map_append, ih]
    cases hf : r.filter (fun p => decide (p.1 = key a)) with
    | nil => rfl
    | cons m ms =>
      cases ms with
      | nil => rfl
      | cons m2 ms2 =>
        have := hr (key a)
        rw [hf] at this
        simp at this

theorem joinLeft_mem_fst {α κ γ : Type} [DecidableEq κ] {l : List α} {key : α → κ}
    {r : List (κ × γ)} {x : α × Option γ} (h : x ∈ joinLeft l key r) : x.1 ∈ l := by
  obtain ⟨a, ha, hx⟩ := List.mem_flatMap.mp h
  cases hf : r.filter (fun p => decide (p.1 = key a)) with
  | nil =>
    rw [hf] at hx
    simp only [List.mem_singleton] at hx
    rw [hx]
    exact ha
  | cons m ms =>
    rw [hf] at hx
    obtain ⟨m', _, hm'⟩ := List.mem_map.mp hx
    rw [← hm']
    exact ha

theorem joinLeft_none {α κ γ : Type} [DecidableEq κ] {l : List α} {key : α → κ}
    {r : List (κ × γ)} {x : α × Option γ} (h : x ∈ joinLeft l key r)
    (hf : r.filter (fun p => decide (p.1 = key x.1)) = []) : x.2 = none := by
  obtain ⟨a, ha, hx⟩ := List.mem_flatMap.mp h
  cases hfa : r.filter (fun p => decide (p.1 = key a)) with
  | nil =>
    rw [hfa] at hx
    simp only [List.mem_singleton] at hx
    rw [hx]
  | cons m ms =>
    rw [hfa] at hx
    obtain ⟨m', _, hm'⟩ := List.mem_map.mp hx
    have hx1 : x.1 = a := by rw [← hm']
    rw [hx1] at hf
    rw [hf] at hfa
    exact List.noConfusion hfa

/-- C6: under the stated key-uniqueness assumptions, the "minimal" and
"full" wide tables carry exactly the base polygon rows, in order (so every
declared neighborhood appears exactly once), and a base row with no match
in some theme table carries a null payload for that theme instead of being
dropped. -/
theorem merge_preserves_base {γm γp γg γf γv : Type}
    (base : List BaseRow) (mob : List ((Nat × Nat × List Nat × List Nat) × γm))
    (parks : List ((Nat × List Nat) × γp)) (plays : List ((Nat × List Nat) × γg))
    (venF : List ((Nat × List Nat) × γf)) (venV : List ((Nat × List Nat) × γv))
    (hmob : ∀ k, (mob.filter (fun p => decide (p.1 = k))).length ≤ 1)
    (hparks : ∀ k, (parks.filter (fun p => decide (p.1 = k))).length ≤ 1)
    (hplays : ∀ k, (plays.filter (fun p => decide (p.1 = k))).length ≤ 1)
    (hvenF : ∀ k, (venF.filter (fun p => decide (p.1 = k))).length ≤ 1)
    (hvenV : ∀ k, (venV.filter (fun p => decide (p.1 = k))).length ≤ 1)
    (hbase : ∀ k, (base.filter (fun b => decide (canonKey b = k))).length ≤ 1) :
    (merge_minimal base mob parks plays).map (fun x => x.1.1.1) = base ∧
    (merge_full base mob parks plays venF venV).map (fun x => x.1.1.1.1.1) = base ∧
    (∀ b ∈ base, ((merge_minimal base mob parks plays).filter
      (fun x => decide (canonKey x.1.1.1 = canonKey b))).length = 1) ∧
    (∀ x ∈ merge_minimal base mob parks plays,
      (mob.filter (fun p => decide (p.1 = mobMergeKey x.1.1.1)) = [] →
        x.1.1.2 = none) ∧
      (parks.filter (fun p => decide (p.1 = canonKey x.1.1.1)) = [] →
        x.1.2 = none) ∧
      (plays.filter (fun p => decide (p.1 = canonKey x.1.1.1)) = [] →
        x.2 = none)) ∧
    (∀ x ∈ merge_full base mob parks plays venF venV,
      (venF.filter (fun p => decide (p.1 = canonKey x.1.1.1.1.1)) = [] →
        x.1.2 = none) ∧
      (venV.filter (fun p => decide (p.1 = canonKey x.1.1.1.1.1)) = [] →
        x.2 = none)) := by
  have e1 : (joinLeft base mobMergeKey mob).map Prod.fst = base :=
    joinLeft_map_fst _ _ _ hmob
  have e2 : (joinLeft (joinLeft base mobMergeKey mob)
      (fun x => canonKey x.1) parks).map Prod.fst = joinLeft base mobMergeKey mob :=
    joinLeft_map_fst _ _ _ hparks
  have e3 : (merge_minimal base mob parks plays).map Prod.fst =
      joinLeft (joinLeft base mobMergeKey mob) (fun x => canonKey x.1) parks :=
    joinLeft_map_fst _ _ _ hplays
  have hmin : (merge_minimal base mob parks plays).map (fun x => x.1.1.1) = base := by
    have : (merge_minimal base mob parks plays).map (fun x => x.1.1.1) =
        (((merge_minimal base mob parks plays).map Prod.fst).map Prod.fst).map
          Prod.fst := by
      rw [List.map_map, List.map_map]
      rfl
    rw [this, e3, e2, e1]
  have e4 : (joinLeft (merge_minimal base mob parks plays)
      (fun x => canonKey x.1.1.1) venF).map Prod.fst =
      merge_minimal base mob parks plays :=
    joinLeft_map_fst _ _ _ hvenF
  have e5 : (merge_full base mob parks plays venF venV).map Prod.fst =
      joinLeft (merge_minimal base mob parks plays)
        (fun x => canonKey x.1.1.1) venF :=
    joinLeft_map_fst _ _ _ hvenV
  have hfull : (merge_full base mob parks plays venF venV).map
      (fun x => x.1.1.1.1.1) = base := by
    have : (merge_full base mob parks plays venF venV).map (fun x => x.1.1.1.1.1) =
        ((((merge_full base mob parks plays venF venV).map Prod.fst).map
          Prod.fst).map (fun x => x.1.1.1)) := by
      rw [List.map_map, List.map_map]
      rfl
    rw [this, e5, e4, hmin]
  refine ⟨hmin, hfull, ?_, ?_, ?_⟩
  · intro b hb
    have hcount : ((merge_minimal base mob parks plays).filter
        (fun x => decide (canonKey x.1.1.1 = canonKey b))).length =
        ((merge_minimal base mob parks plays).map (fun x => x.1.1.1)).countP
          (fun t => decide (canonKey t = canonKey b)) := by
      rw [List.countP_map, ← List.countP_eq_length_filter]
      rfl
    rw [hcount, hmin]
    have hle := hbase (canonKey b)
    rw [← List.countP_eq_length_filter] at hle
    have hpos : 0 < base.countP (fun t => decide (canonKey t = canonKey b)) :=
      List.countP_pos.mpr ⟨b, hb, by simp⟩
    omega
  · intro x hx
    have hx1 : x.1 ∈ joinLeft (joinLeft base mobMergeKey mob)
        (fun t => canonKey t.1) parks := joinLeft_mem_fst hx
    have hx11 : x.1.1 ∈ joinLeft base mobMergeKey mob := joinLeft_mem_fst hx1
    exact ⟨fun hf => joinLeft_none hx11 hf, fun hf => joinLeft_none hx1 hf,
      fun hf => joinLeft_none hx hf⟩
  · intro x hx
    have hx1 : x.1 ∈ joinLeft (merge_minimal base mob parks plays)
        (fun t => canonKey t.1.1.1) venF := joinLeft_mem_fst hx
    exact ⟨fun hf => joinLeft_none hx1 hf, fun hf => joinLeft_none hx hf⟩

/-- C6 witness: a concrete one-polygon base with an empty mobility table and
a matching parks row merges to exactly the base row. -/
theorem merge_preserves_base_witness :
    (merge_minimal [⟨1, codes "X", 2, codes "N", codes "n", 0⟩]
      ([] : List ((Nat × Nat × List Nat × List Nat) × Unit))
      ([((1, codes "n"), ())] : List ((Nat × List Nat) × Unit))
      ([] : List ((Nat × List Nat) × Unit))).map (fun x => x.1.1.1) =
      [⟨1, codes "X", 2, codes "N", codes "n", 0⟩] :=
  (merge_preserves_base _ _ _ _
    ([] : List ((Nat × List Nat) × Unit)) ([] : List ((Nat × List Nat) × Unit))
    (fun k => le_trans (List.length_filter_le _ _) (by norm_num))
    (fun k => le_trans (List.length_filter_le _ _) (by norm_num))
    (fun k => le_trans (List.length_filter_le _ _) (by norm_num))
    (fun k => le_trans (List.length_filter_le _ _) (by norm_num))
    (fun k => le_trans (List.length_filter_le _ _) (by norm_num))
    (fun k => le_trans (List.length_filter_le _ _) (by norm_num))).1

/-! ## Mobility zero-fill (C10) -/

theorem getD_enumFrom {α : Type} (l : List α) (n i : Nat) (h : i < l.length)
    (d : Nat × α) : (List.enumFrom n l).getD i d = (n + i, l.getD i d.2) := by
  induction l generalizing n i with
  | nil => simp at h
  | cons a as ih =>
    cases i with
    | zero => simp [List.getD]
    | succ j =>
      simp only [List.length_cons, Nat.succ_lt_succ_iff] at h
      have hrec := ih (n + 1) j h
      show (List.enumFrom (n + 1) as).getD j d = (n + (j + 1), (a :: as).getD (j + 1) d.2)
      rw [hrec]
      simp only [Prod.mk.injEq]
      exact ⟨by omega, rfl⟩

theorem getD_enum {α : Type} (l : List α) (i : Nat) (h : i < l.length)
    (d : Nat × α) : l.enum.getD i d = (i, l.getD i d.2) := by
  have := getD_enumFrom l 0 i h d
  simpa [List.enum] using this

theorem percentile_score_some_of_some {s : List (Option ℚ)} {i : Nat} {v : ℚ}
    (hv : s.getD i none = some v) :
    ∃ y, (percentile_score s).getD i none = some y := by
  obtain ⟨plo, h10⟩ := nanpercentile_isSome_of_getD hv 10
  obtain ⟨phi, h90⟩ := nanpercentile_isSome_of_getD hv 90
  rw [percentile_score_getD_some s plo phi h10 h90 i, hv]
  exact ⟨_, rfl⟩

/-- C10: a polygon with no spatially assigned transit point receives the
integer counts `ubahn_stations = bus_tram_stops = total_stops = 0` and
`connectivity_density = 0` (not nulls), and it participates as a zero-valued
member of the population scored by `percentile_score` (its score column is
the percentile score of the full density column and its own score is
non-null) — unlike an unmatched key in a theme left-merge, whose payload
becomes null. -/
theorem compute_mobility_zero_fill (polys : List Poly) (u_pts b_pts : List Nat)
    (i : Nat) (hi : i < polys.length) (hu : ¬ i ∈ u_pts) (hb : ¬ i ∈ b_pts) :
    (compute_mobility_labels polys u_pts b_pts).ubahn_stations.getD i 0 = 0 ∧
    (compute_mobility_labels polys u_pts b_pts).bus_tram_stops.getD i 0 = 0 ∧
    (compute_mobility_labels polys u_pts b_pts).total_stops.getD i 0 = 0 ∧
    (compute_mobility_labels polys u_pts b_pts).connectivity_density.getD i 0 = 0 ∧
    (compute_mobility_labels polys u_pts b_pts).mobility_score = percentile_score
      ((compute_mobility_labels polys u_pts b_pts).connectivity_density.map some) ∧
    (∃ y, (compute_mobility_labels polys u_pts b_pts).mobility_score.getD i none =
      some y) ∧
    (∀ (γp : Type) (base : List BaseRow) (parks : List ((Nat × List Nat) × γp))
      (x : BaseRow × Option γp), x ∈ joinLeft base canonKey parks →
      parks.filter (fun p => decide (p.1 = canonKey x.1)) = [] → x.2 = none) := by
  have p0 : Poly := ⟨0, 0, [], 0⟩
  have hcu : (u_pts.filter (fun p => p == i)).length = 0 := by
    rw [List.filter_eq_nil_iff.mpr]
    · rfl
    · intro p hp hcon
      rw [beq_iff_eq] at hcon
      exact hu (hcon ▸ hp)
  have hcb : (b_pts.filter (fun p => p == i)).length = 0 := by
    rw [List.filter_eq_nil_iff.mpr]
    · rfl
    · intro p hp hcon
      rw [beq_iff_eq] at hcon
      exact hb (hcon ▸ hp)
  have hlen : polys.enum.length = polys.length := List.enum_length
  have hilen : i < polys.enum.length := by rw [hlen]; exact hi
  have henum : polys.enum.getD i (0, p0) = (i, polys.getD i p0) :=
    getD_enum polys i hi (0, p0)
  have hub : (compute_mobility_labels polys u_pts b_pts).ubahn_stations.getD i 0
      = 0 := by
    show ((polys.enum.map _).getD i 0 : Nat) = 0
    rw [getD_map_lt _ hilen (0, p0) 0, henum]
    exact hcu
  have hbs : (compute_mobility_labels polys u_pts b_pts).bus_tram_stops.getD i 0
      = 0 := by
    show ((polys.enum.map _).getD i 0 : Nat) = 0
    rw [getD_map_lt _ hilen (0, p0) 0, henum]
    exact hcb
  have hts : (compute_mobility_labels polys u_pts b_pts).total_stops.getD i 0
      = 0 := by
    show ((polys.enum.map _).getD i 0 : Nat) = 0
    rw [getD_map_lt _ hilen (0, p0) 0, henum]
    show (u_pts.filter (fun p => p == i)).length +
      (b_pts.filter (fun p => p == i)).length = 0
    rw [hcu, hcb]
  have hdens : (compute_mobility_labels polys u_pts b_pts).connectivity_density.getD
      i 0 = 0 := by
    show ((polys.enum.map _).getD i 0 : ℚ) = 0
    rw [getD_map_lt _ hilen (0, p0) 0, henum]
    show ((7 : ℚ)/10 * ((u_pts.filter (fun p => p == i)).length : ℚ) +
      3/10 * ((b_pts.filter (fun p => p == i)).length : ℚ)) /
      (polys.getD i p0).area_eff_km2 = 0
    rw [hcu, hcb]
    norm_num
  refine ⟨hub, hbs, hts, hdens, rfl, ?_, ?_⟩
  · have hdlen : i < ((compute_mobility_labels polys u_pts b_pts).connectivity_density).length := by
      show i < (polys.enum.map _).length
      rw [List.length_map]
      exact hilen
    have hsome : (((compute_mobility_labels polys u_pts
        b_pts).connectivity_density).map some).getD i none =
        some (((compute_mobility_labels polys u_pts
          b_pts).connectivity_density).getD i 0) :=
      getD_map_lt _ hdlen 0 none
    obtain ⟨y, hy⟩ := percentile_score_some_of_some hsome
    exact ⟨y, hy⟩
  · intro γp base parks x hx hf
    exact joinLeft_none hx hf

/-- C10 witness: the zero-fill at a concrete single polygon with no assigned
points. -/
theorem compute_mobility_zero_fill_witness :
    (compute_mobility_labels [⟨1, 1, codes "N", 1⟩] [] []).ubahn_stations.getD 0 0
      = 0 :=
  (compute_mobility_zero_fill [⟨1, 1, codes "N", 1⟩] [] [] 0 (by norm_num)
    (by simp) (by simp)).1

end BerlinApp
